import Mathlib

/-!
Verification of the invoice-extraction logic of the MOONOCR repository.

The development shallowly embeds the two Python sources,
`process_invoice.py` (namespace `PInv`) and `scripts/process_invoice.py`
(namespace `Script`), over exact data:

* geometry and confidences are modelled as `Rat` (CPython works on binary
  doubles; every computation checked here is exact at the scale of the
  inputs involved, so the rational idealization is faithful).  The
  arithmetic uses the `ratAdd`/`ratSub`/`ratMul`/`ratDiv`/`ratAbs`
  wrappers below, which produce exactly the same rational values as
  `+`/`-`/`*`/`/`/`|·|` but are built from `mkRat` so that closed
  computations reduce inside the kernel (the standard operations are
  `@[irreducible]`);
* Python strings are Lean `String`s; `None`-or-string values are
  `Option String`;
* `float(...)` calls that can raise `ValueError` are modelled as
  `Option`/`Except` values, with the `try/except` blocks of the source
  mirrored at the call sites;
* Python's `\d` character class is modelled by the decimal-digit
  codepoints reachable in this domain (ASCII and fullwidth digits), and
  `\s` by the whitespace codepoints reachable here.
-/

/-! ## Python character classes -/

/-- Decimal digit as matched by Python's `\d` on the inputs in scope:
ASCII `0`-`9` (codepoints 48-57) or fullwidth `０`-`９` (0xFF10-0xFF19). -/
def isPyDigit (c : Char) : Bool :=
  decide (48 ≤ c.toNat ∧ c.toNat ≤ 57) || decide (0xFF10 ≤ c.toNat ∧ c.toNat ≤ 0xFF19)

/-- ASCII digit, the class `[0-9]` used by the explicit regexes. -/
def isAsciiDigit (c : Char) : Bool :=
  decide (48 ≤ c.toNat ∧ c.toNat ≤ 57)

/-- Whitespace as matched by Python's `\s` on the inputs in scope:
space, tab, LF, VT, FF, CR, NBSP (0xA0) and ideographic space (0x3000). -/
def isPySpace (c : Char) : Bool :=
  decide (c.toNat = 32 ∨ c.toNat = 9 ∨ c.toNat = 10 ∨ c.toNat = 11 ∨
    c.toNat = 12 ∨ c.toNat = 13 ∨ c.toNat = 0xA0 ∨ c.toNat = 0x3000)

/-- Characters removed by `re.sub(r'[半#¥￥\s]', '', ...)` in `clean_amount`:
`半` (0x534A), `#` (35), `¥` (0xA5), `￥` (0xFFE5) and whitespace. -/
def stripChar (c : Char) : Bool :=
  decide (c.toNat = 0x534A) || decide (c.toNat = 35) || decide (c.toNat = 0xA5) ||
    decide (c.toNat = 0xFFE5) || isPySpace c

/-- Characters kept by `re.sub(r'[^\d,.]', '', ...)`: digits, `,` (44), `.` (46). -/
def keepNumChar (c : Char) : Bool :=
  isPyDigit c || decide (c.toNat = 44) || decide (c.toNat = 46)

/-! ## String primitives

The Lean core string functions `trim`, `toLower` and `intercalate` do not
reduce inside the kernel, so the Python string methods are embedded as
structural recursions over the character list. -/

/-- Python `str.replace(',', '')`. -/
def stripCommas (s : String) : String :=
  String.mk (s.toList.filter (fun c => !(c == ',')))

/-- Python `str.strip()`: remove leading and trailing whitespace. -/
def pyStrip (s : String) : String :=
  String.mk (((s.toList.dropWhile isPySpace).reverse.dropWhile isPySpace).reverse)

/-- Python `str.lower()` on the inputs in scope (ASCII letters; the
Japanese keywords are unaffected by lowercasing). -/
def pyLower (s : String) : String :=
  String.mk (s.toList.map (fun c =>
    if 65 ≤ c.toNat ∧ c.toNat ≤ 90 then Char.ofNat (c.toNat + 32) else c))

/-- Helper for `joinSpace`: interleave a single space between the parts. -/
def joinSpaceGo : List (List Char) → List Char
  | [] => []
  | [l] => l
  | l :: r :: rest => l ++ ' ' :: joinSpaceGo (r :: rest)

/-- Python `' '.join(parts)`. -/
def joinSpace (parts : List String) : String :=
  String.mk (joinSpaceGo (parts.map String.toList))

instance {ε α : Type} [DecidableEq ε] [DecidableEq α] : DecidableEq (Except ε α) :=
  fun a b =>
    match a, b with
    | .ok x, .ok y =>
      if h : x = y then isTrue (by rw [h]) else isFalse (by intro he; cases he; exact h rfl)
    | .ok _, .error _ => isFalse (by intro he; cases he)
    | .error _, .ok _ => isFalse (by intro he; cases he)
    | .error x, .error y =>
      if h : x = y then isTrue (by rw [h]) else isFalse (by intro he; cases he; exact h rfl)

/-- Whether the character list `hay` starts with `needle`. -/
def startsWithChars : List Char → List Char → Bool
  | _, [] => true
  | [], _ :: _ => false
  | a :: as, b :: bs => a == b && startsWithChars as bs

/-- Whether `needle` occurs as a contiguous run inside `hay`. -/
def containsChars : List Char → List Char → Bool
  | [], n => startsWithChars [] n
  | a :: rest, n => startsWithChars (a :: rest) n || containsChars rest n

/-- Python's substring test `needle in hay`. -/
def containsSub (hay needle : String) : Bool :=
  containsChars hay.toList needle.toList

/-! ## Kernel-computable rational arithmetic

`mkRat` normalizes, so each wrapper returns the canonical form of exactly
the rational that the corresponding standard operation returns. -/

/-- Rational addition, `a + b`. -/
def ratAdd (a b : Rat) : Rat :=
  mkRat (a.num * b.den + b.num * a.den) (a.den * b.den)

/-- Rational subtraction, `a - b`. -/
def ratSub (a b : Rat) : Rat :=
  mkRat (a.num * b.den - b.num * a.den) (a.den * b.den)

/-- Rational multiplication, `a * b`. -/
def ratMul (a b : Rat) : Rat :=
  mkRat (a.num * b.num) (a.den * b.den)

/-- Rational division, `a / b` (with Lean's `a / 0 = 0` convention; every
division in the sources is guarded by a positivity test on the divisor). -/
def ratDiv (a b : Rat) : Rat :=
  if 0 ≤ b.num then mkRat (a.num * b.den) (a.den * b.num.toNat)
  else mkRat (-(a.num * b.den)) (a.den * (-b.num).toNat)

/-- Rational absolute value, `|a|`. -/
def ratAbs (a : Rat) : Rat :=
  if a.num < 0 then -a else a

/-- Arithmetic mean of a list of rationals (the running row-center mean). -/
def ratMean (l : List Rat) : Rat :=
  ratDiv (l.foldl ratAdd 0) (l.length : Rat)

/-! ## Python float parsing and number formatting (exact rationals) -/

/-- Numeric value of a decimal digit character (ASCII or fullwidth). -/
def digitVal (c : Char) : Nat :=
  if 0xFF00 ≤ c.toNat then c.toNat - 0xFF10 else c.toNat - 48

/-- Value of a list of decimal digit characters, most significant first. -/
def natValChars (l : List Char) : Nat :=
  l.foldl (fun a c => a * 10 + digitVal c) 0

/-- Python `float(s)` on the digit/dot strings reachable at the call sites
(the cleaned amount strings with commas removed, or arbitrary OCR text that
Python would reject as well).  Returns `none` where CPython raises
`ValueError`.  Signs, exponents and inf/nan spellings do not occur in the
cleaned inputs and are not modelled. -/
def pyFloat? (s : String) : Option Rat :=
  let l := s.toList
  let ip := l.takeWhile (fun c => !(c == '.'))
  let rest := l.dropWhile (fun c => !(c == '.'))
  if l.all (fun c => isPyDigit c || c == '.') then
    match rest with
    | [] => if ip.isEmpty then none else some (mkRat (natValChars ip) 1)
    | _ :: fp =>
      if fp.contains '.' then none
      else if ip.isEmpty && fp.isEmpty then none
      else some (mkRat (natValChars ip * 10 ^ fp.length + natValChars fp) (10 ^ fp.length))
  else none

/-- Round to the nearest integer, ties to even — the rounding used by
CPython's `format` on the exact values in scope. -/
def roundHalfEven (x : Rat) : Int :=
  let f := x.floor
  let r := ratSub x (mkRat f 1)
  if r < mkRat 1 2 then f
  else if mkRat 1 2 < r then f + 1
  else if f % 2 = 0 then f else f + 1

/-- Insert thousands separators into a list of digit characters
(most significant first). -/
def groupDigits (ds : List Char) : List Char :=
  (ds.enum.map (fun p =>
    if p.1 ≠ 0 && (ds.length - p.1) % 3 = 0 then [',', p.2] else [p.2])).flatten

/-- Decimal digits of `n` with thousands separators, e.g. `1250000 ↦ "1,250,000"`. -/
def groupNat (n : Nat) : String :=
  String.mk (groupDigits (toString n).toList)

/-- Python `"{:,.0f}".format(x)`: round to an integer (ties to even) and
insert thousands separators.  All call sites format nonnegative values. -/
def fmtComma0 (x : Rat) : String :=
  let i := roundHalfEven x
  if i < 0 then "-" ++ groupNat i.natAbs else groupNat i.toNat

/-- Python `f"{int(x):,}"` for an `x` with `x.is_integer()` true. -/
def fmtIntComma (x : Rat) : String :=
  if x.num < 0 then "-" ++ groupNat x.num.natAbs else groupNat x.num.toNat

/-- Two-digit zero-padded decimal string for `k ≤ 99`. -/
def twoDigits (k : Nat) : String :=
  (if k < 10 then "0" else "") ++ toString k

/-- Python `f"{x:,.2f}"`: two decimals, ties to even, thousands separators
in the integer part.  All call sites format nonnegative values. -/
def fmtComma2 (x : Rat) : String :=
  let c := roundHalfEven (ratMul x (mkRat 100 1))
  let n := c.natAbs
  (if c < 0 then "-" else "") ++ groupNat (n / 100) ++ "." ++ twoDigits (n % 100)

/-- The formatting applied by `parse_line_items_logic` to a derived
quotient: `f"{int(v):,}" if v.is_integer() else f"{v:,.2f}"`. -/
def fmtQuot (v : Rat) : String :=
  if v.den = 1 then fmtIntComma v else fmtComma2 v

/-! ## `clean_amount` (process_invoice.py, lines 86-95) -/

/-- Embedding of `clean_amount` on a string argument: first
`re.sub(r'[半#¥￥\s]', '', s)`, then `re.sub(r'[^\d,.]', '', ...)`,
returning `None` when the input or the result is empty. -/
def cleanAmountStr (s : String) : Option String :=
  if s = "" then none
  else
    let r := String.mk ((s.toList.filter (fun c => !stripChar c)).filter keepNumChar)
    if r = "" then none else some r

/-- Embedding of `clean_amount` on a Python `None`-or-string value
(`if not amount_str: return None`). -/
def cleanAmount : Option String → Option String
  | none => none
  | some s => cleanAmountStr s

example : cleanAmountStr "¥1,250,000" = some "1,250,000" := by decide
example : cleanAmountStr "半 #" = none := by decide
example : pyFloat? "125000" = some 125000 := by decide
example : pyFloat? "12.5" = some (mkRat 25 2) := by decide
example : pyFloat? "1.2.3" = none := by decide
example : pyFloat? "" = none := by decide
example : groupNat 1250000 = "1,250,000" := by decide
example : fmtComma0 (1000 : Rat) = "1,000" := by decide
example : fmtQuot (mkRat 25 2) = "12.50" := by decide
example : fmtQuot (ratDiv 0 3) = "0" := by decide

/-! ## Tokens and geometry

EasyOCR returns each fragment as `(bbox, text, confidence)` where `bbox`
is the four corners top-left, top-right, bottom-right, bottom-left.  The
sources index it as `bbox[0]..bbox[3]`. -/

/-- A 2-D point. -/
structure Pt where
  x : Rat
  y : Rat
deriving DecidableEq

/-- Four-corner bounding box `[p0, p1, p2, p3]` = tl, tr, br, bl. -/
structure Quad where
  p0 : Pt
  p1 : Pt
  p2 : Pt
  p3 : Pt
deriving DecidableEq

/-- One OCR fragment. -/
structure Token where
  text : String
  bbox : Quad
  confidence : Rat
deriving DecidableEq

/-- `bbox[0][1]`, the top-left y used as the vertical sort key. -/
def topY (t : Token) : Rat := t.bbox.p0.y

/-- `bbox[0][0]`, the top-left x used as the horizontal sort key. -/
def leftX (t : Token) : Rat := t.bbox.p0.x

/-- `(bbox[0][1] + bbox[2][1]) / 2`, the vertical center. -/
def yCenter (t : Token) : Rat := ratDiv (ratAdd t.bbox.p0.y t.bbox.p2.y) 2

/-- Mean of the four corner x coordinates, the horizontal block center. -/
def centerX (t : Token) : Rat :=
  ratDiv (ratAdd (ratAdd (ratAdd t.bbox.p0.x t.bbox.p1.x) t.bbox.p2.x) t.bbox.p3.x) 4

/-- Ordering on tokens by top-left y, the key of `sort(key=lambda x: x['bbox'][0][1])`. -/
def leTopY (a b : Token) : Prop := topY a ≤ topY b

instance : DecidableRel leTopY := fun a b => inferInstanceAs (Decidable (topY a ≤ topY b))

instance : IsTotal Token leTopY := ⟨fun a b => le_total (topY a) (topY b)⟩

instance : IsTrans Token leTopY := ⟨fun _ _ _ h1 h2 => le_trans h1 h2⟩

/-- Ordering on tokens by top-left x, the key of `sort(key=lambda x: x['bbox'][0][0])`. -/
def leLeftX (a b : Token) : Prop := leftX a ≤ leftX b

instance : DecidableRel leLeftX := fun a b => inferInstanceAs (Decidable (leftX a ≤ leftX b))

instance : IsTotal Token leLeftX := ⟨fun a b => le_total (leftX a) (leftX b)⟩

instance : IsTrans Token leLeftX := ⟨fun _ _ _ h1 h2 => le_trans h1 h2⟩

/-- Python's stable `list.sort` on the top-left y key (insertion sort with a
non-strict comparison is stable in the same sense). -/
def sortByTopY (l : List Token) : List Token := List.insertionSort leTopY l

/-- Python's stable `list.sort` on the top-left x key. -/
def sortByLeftX (l : List Token) : List Token := List.insertionSort leLeftX l

namespace PInv

/-! ## `parse_line_items_logic` (process_invoice.py, lines 102-226) -/

/-- The unit words recognized in a row (line 164). -/
def unitWords : List String :=
  ["パック", "kg", "g", "個", "本", "枚", "セット", "袋", "円", "式", "件", "個口"]

/-- The numeric-token test `re.match(r'^[0-9,]+(\.[0-9]+)?$', text)` (line 162). -/
def isNumericText (s : String) : Bool :=
  let l := s.toList
  let ip := l.takeWhile (fun c => !(c == '.'))
  let rest := l.dropWhile (fun c => !(c == '.'))
  !ip.isEmpty && ip.all (fun c => isAsciiDigit c || c == ',') &&
    (rest.isEmpty || (!rest.tail.isEmpty && rest.tail.all isAsciiDigit))

/-- The description-exclusion test of line 167:
`re.match(r'^[0-9\s#¥￥]+$', text) or text in ['INVOICE', 'TEL']`. -/
def descriptionExcluded (s : String) : Bool :=
  (!s.toList.isEmpty &&
    s.toList.all (fun c => isAsciiDigit c || isPySpace c || c == '#' || c == '¥' || c == '￥')) ||
    s == "INVOICE" || s == "TEL"

/-- The content extracted from one row: joined-and-trimmed description,
the numeric token texts in left-to-right order, and the last unit word. -/
structure RowParts where
  description : String
  numbers : List String
  unit : Option String
deriving DecidableEq

/-- One pass over the x-sorted row tokens (lines 156-170), accumulating
description fragments, numeric texts and the unit word. -/
def rowPartsGo : List Token → List String → List String → Option String → RowParts
  | [], descs, nums, u => ⟨pyStrip (joinSpace descs), nums, u⟩
  | t :: rest, descs, nums, u =>
    let s := pyStrip t.text
    if isNumericText s then rowPartsGo rest descs (nums ++ [s]) u
    else if unitWords.contains s then rowPartsGo rest descs nums (some s)
    else if descriptionExcluded s then rowPartsGo rest descs nums u
    else rowPartsGo rest (descs ++ [s]) nums u

/-- Row decomposition, on a row already sorted by `bbox[0][0]`. -/
def rowParts (row : List Token) : RowParts := rowPartsGo row [] [] none

/-- `cleaned_numbers` (line 185): `clean_amount` of each numeric text,
keeping the truthy (non-`None`) results. -/
def cleanedNumbers (nums : List String) : List String :=
  nums.filterMap cleanAmountStr

/-- `numeric_values` (lines 186-191): `float` of each cleaned number with
commas removed, skipping the ones that raise `ValueError`. -/
def numericValues (cleaned : List String) : List Rat :=
  cleaned.filterMap (fun s => pyFloat? (stripCommas s))

/-- One extracted line item (the dict of lines 177-183). -/
structure LineItem where
  description : String
  unit_price : Option String
  quantity : Option String
  unit : Option String
  amount : Option String
deriving DecidableEq

/-- The 1/2/3+-number field assignment (lines 193-205), producing
`(unit_price, quantity, amount)`.  With exactly two cleaned numbers of
which exactly one parses, `numeric_values[1]` raises `IndexError`, which
escapes `parse_line_items_logic`; this is the `Except.error` case. -/
def assignFields (cleaned : List String) (vals : List Rat) :
    Except Unit (Option String × Option String × Option String) :=
  match cleaned with
  | c0 :: c1 :: c2 :: _ => .ok (some c0, some c1, some c2)
  | [c0, c1] =>
    match vals with
    | [] => .ok (some c0, none, some c1)
    | [_] => .error ()
    | v0 :: v1 :: _ =>
      if v0 < v1 ∧ v0 < 1000 then .ok (none, some c0, some c1)
      else .ok (some c0, none, some c1)
  | [c0] => .ok (none, none, some c0)
  | [] => .ok (none, none, none)

/-- `float(field.replace(',', '')) if field else None` inside the
reconciliation `try` block; a `ValueError` aborts the whole block. -/
def parseNumField (f : Option String) : Except Unit (Option Rat) :=
  match f with
  | none => .ok none
  | some s =>
    if s = "" then .ok none
    else
      match pyFloat? (stripCommas s) with
      | some v => .ok (some v)
      | none => .error ()

/-- Python truthiness of a parsed optional float (`None` and `0.0` falsy). -/
def truthyR (v : Option Rat) : Bool :=
  match v with
  | some x => !(x == 0)
  | none => false

/-- The numeric reconciliation step (lines 207-221): derive the missing
field from the other two; any `ValueError`/`ZeroDivisionError` is caught
and leaves the item unchanged. -/
def reconcile (it : LineItem) : LineItem :=
  match parseNumField it.quantity, parseNumField it.unit_price, parseNumField it.amount with
  | .ok q, .ok u, .ok a =>
    if truthyR q ∧ truthyR u ∧ a = none then
      { it with amount := some (fmtComma0 (ratMul (q.getD 0) (u.getD 0))) }
    else if truthyR q ∧ truthyR a ∧ u = none ∧ 0 < q.getD 0 then
      { it with unit_price := some (fmtQuot (ratDiv (a.getD 0) (q.getD 0))) }
    else if truthyR u ∧ truthyR a ∧ q = none ∧ 0 < u.getD 0 then
      { it with quantity := some (fmtQuot (ratDiv (a.getD 0) (u.getD 0))) }
    else it
  | _, _, _ => it

/-- Python truthiness of an optional string field (`None` and `''` falsy). -/
def keepField (f : Option String) : Bool :=
  match f with
  | some s => !(s == "")
  | none => false

/-- Processing of one clustered row (lines 153-224): sort by x, split into
parts, pre-filter, assign number roles, reconcile, and keep the item only
if it has a truthy description and at least one truthy numeric field.
`Except.error` models the `IndexError` escaping from line 198. -/
def processRow (row : List Token) : Except Unit (Option LineItem) :=
  let p := rowParts (sortByLeftX row)
  if p.description = "" ∧ p.numbers = [] then .ok none
  else if p.description = "" ∧ p.numbers.length < 2 then .ok none
  else
    let cleaned := cleanedNumbers p.numbers
    match assignFields cleaned (numericValues cleaned) with
    | .error e => .error e
    | .ok (up, qty, amt) =>
      let it := reconcile ⟨p.description, up, qty, p.unit, amt⟩
      if it.description ≠ "" ∧ (keepField it.amount ∨ keepField it.unit_price ∨ keepField it.quantity) then
        .ok (some it)
      else .ok none

/-! ## Row clustering (lines 137-151) -/

/-- The running-mean clustering loop: `cur` is the open row, `c` its
current mean y-center; a token farther than 15 from `c` closes the row. -/
def clusterGo : List Token → List Token → Rat → List (List Token)
  | [], cur, _ => [cur]
  | t :: rest, cur, c =>
    if ratAbs (ratSub (yCenter t) c) > 15 then cur :: clusterGo rest [t] (yCenter t)
    else
      let cur2 := cur ++ [t]
      clusterGo rest cur2 (ratMean (cur2.map yCenter))

/-- Clustering of a y-sorted token list into rows. -/
def clusterRows : List Token → List (List Token)
  | [] => []
  | t :: rest => clusterGo rest [t] (yCenter t)

/-- The full clustering of lines 137-151: stable sort by `bbox[0][1]`,
then running-mean grouping with tolerance 15. -/
def rowCluster (ts : List Token) : List (List Token) :=
  clusterRows (sortByTopY ts)

/-! ## Date fallback (parse_japanese_invoice, lines 260-265) -/

/-- Python truthiness of an optional string (`None`/`''` falsy). -/
def pyTruthyOpt (o : Option String) : Bool :=
  match o with
  | some s => !(s == "")
  | none => false

/-- The date fallback: given the current `invoice_date` and `due_date` and
the list `ms` of `re.findall` date matches in text order, assign `ms[0]`
to a falsy `invoice_date` and `ms[1]` to a falsy `due_date`. -/
def dateFallback (inv due : Option String) (ms : List String) :
    Option String × Option String :=
  if !pyTruthyOpt inv || !pyTruthyOpt due then
    (if 1 ≤ ms.length && !pyTruthyOpt inv then ms[0]? else inv,
     if 2 ≤ ms.length && !pyTruthyOpt due then ms[1]? else due)
  else (inv, due)

/-- Lexicographic codepoint order on character lists. -/
def strLeChars : List Char → List Char → Bool
  | [], _ => true
  | _ :: _, [] => false
  | a :: as, b :: bs =>
    if a.toNat < b.toNat then true
    else if b.toNat < a.toNat then false
    else strLeChars as bs

/-- Lexicographic codepoint order on strings (Python `sorted` on the
fixed-format date strings orders them chronologically). -/
def dateLe (a b : String) : Prop := strLeChars a.toList b.toList = true

instance : DecidableRel dateLe :=
  fun a b => inferInstanceAs (Decidable (strLeChars a.toList b.toList = true))

/-- Modelled from the spec's words, for comparison with `dateFallback`:
collect the date-like matches, deduplicate, sort ascending, and assign the
earliest to an unset `invoice_date` and the latest to an unset `due_date`. -/
def dateFallbackSpec (inv due : Option String) (ms : List String) :
    Option String × Option String :=
  if !pyTruthyOpt inv || !pyTruthyOpt due then
    let ds := List.insertionSort dateLe ms.eraseDups
    (if !pyTruthyOpt inv && !ds.isEmpty then ds.head? else inv,
     if !pyTruthyOpt due && !ds.isEmpty then ds.getLast? else due)
  else (inv, due)

end PInv

namespace Script

/-! ## Total-amount post-processing (scripts/process_invoice.py, lines 260-286)

The selected candidate string is cleaned (`re.sub(r'[^\d.,]', '', ...)`,
commas removed, stripped), parsed as a float (falling back to the digits
only, or `0`), filtered by the `> 100` plausibility floor and formatted
with `"{:,.0f}"`. -/

/-- The final total-amount value from the spatially selected candidate
text (`None` when no candidate was selected or the floor rejects it). -/
def processTotal (tv : Option String) : Option String :=
  match tv with
  | none => none
  | some s =>
    if s = "" then none
    else
      let cleaned := pyStrip (stripCommas (String.mk (s.toList.filter keepNumChar)))
      if cleaned = "" then none
      else
        let numerical : Rat :=
          match pyFloat? cleaned with
          | some v => v
          | none =>
            let d := cleaned.toList.filter isPyDigit
            if d.isEmpty then 0 else mkRat (natValChars d) 1
        if numerical > 100 then some (fmtComma0 numerical) else none

/-! ## Account-holder spatial fallback (lines 326-368) -/

/-- The name-script character classes of the fallback's regex:
hiragana, katakana, CJK unified, CJK extension A. -/
def isJapaneseChar (c : Char) : Bool :=
  decide (0x3040 ≤ c.toNat ∧ c.toNat ≤ 0x309F) ||
  decide (0x30A0 ≤ c.toNat ∧ c.toNat ≤ 0x30FF) ||
  decide (0x4E00 ≤ c.toNat ∧ c.toNat ≤ 0x9FAF) ||
  decide (0x3400 ≤ c.toNat ∧ c.toNat ≤ 0x4DBF)

/-- `japanese_char_pattern.search(text)`. -/
def hasJapanese (s : String) : Bool := s.toList.any isJapaneseChar

/-- Candidate filter of lines 338-360: tokens overlapping the search
window right of the account-number box, with confidence above 0.5 and
name-script characters in the text. -/
def holderCandidates (acct : Quad) (ocr : List Token) : List Token :=
  let left := ratSub acct.p1.x 10
  let right := ratAdd acct.p1.x 200
  let top := ratSub acct.p0.y 5
  let bottom := ratAdd acct.p2.y 20
  ocr.filter (fun t =>
    let bl := t.bbox.p0.x
    let br := t.bbox.p1.x
    let bt := t.bbox.p0.y
    let bb := t.bbox.p2.y
    let ho := max 0 (ratSub (min br right) (max bl left))
    let vo := max 0 (ratSub (min bb bottom) (max bt top))
    decide (ho > ratMul (ratSub br bl) (mkRat 1 2)) && decide (vo > 0) &&
      decide (t.confidence > mkRat 1 2) && hasJapanese t.text)

/-- Strict "greater" on the sort key
`(confidence, abs(candidate_left - account_right))` of line 364; the list
is sorted by this key with `reverse=True`, so its head is the first
candidate whose key is lexicographically maximal. -/
def holderKeyGT (acctRightX : Rat) (a b : Token) : Bool :=
  let da := ratAbs (ratSub a.bbox.p0.x acctRightX)
  let db := ratAbs (ratSub b.bbox.p0.x acctRightX)
  decide (b.confidence < a.confidence) ||
    (a.confidence == b.confidence && decide (db < da))

/-- The spatial account-holder selection (lines 343-368): the head of the
stable descending sort of the candidates, i.e. the first candidate with
lexicographically maximal `(confidence, horizontal distance)` key. -/
def selectAccountHolder (acct : Quad) (ocr : List Token) : Option String :=
  match holderCandidates acct ocr with
  | [] => none
  | c :: rest =>
    some ((rest.foldl (fun best t => if holderKeyGT acct.p1.x t best then t else best) c).text |> pyStrip)

/-! ## Line-item table pipeline (lines 374-619) -/

/-- The canonical column names with their keyword synonym sets, in the
insertion order of `header_keywords_map` (lines 377-383). -/
def headerKeywordsMap : List (String × List String) :=
  [("DESCRIPTION", ["品目名", "内容"]),
   ("UNIT PRICE", ["単価", "価格"]),
   ("QUANTITY", ["数量", "数"]),
   ("UNIT", ["単位"]),
   ("AMOUNT", ["金額", "合計"])]

/-- `text.strip().lower()`. -/
def normalize (s : String) : String := pyLower (pyStrip s)

/-- Whether a token text contains any column keyword (lines 396-401). -/
def isHeaderCand (t : Token) : Bool :=
  headerKeywordsMap.any (fun p => p.2.any (fun k => containsSub (normalize t.text) (pyLower k)))

/-- Step 1 grouping loop (lines 394-419): keyword candidates with
confidence above 0.6 are grouped into rows by running-mean y-centers with
threshold 15; other tokens are skipped. -/
def groupHeadersGo : List Token → List (List Token) → List Token → List (List Token)
  | [], acc, cur => if cur.isEmpty then acc else acc ++ [cur]
  | t :: rest, acc, cur =>
    if isHeaderCand t ∧ t.confidence > mkRat 3 5 then
      if cur.isEmpty then groupHeadersGo rest acc [t]
      else
        let c := yCenter t
        let m := ratMean (cur.map yCenter)
        if ratAbs (ratSub c m) < 15 then groupHeadersGo rest acc (cur ++ [t])
        else groupHeadersGo rest (acc ++ [cur]) [t]
    else groupHeadersGo rest acc cur

/-- The potential header rows of the y-sorted OCR results. -/
def potentialHeaderRows (ocr : List Token) : List (List Token) :=
  groupHeadersGo (sortByTopY ocr) [] []

/-- Per-row scan (lines 426-439): distinct matched column names in
encounter order, row bottom edge, and the first matching block (bbox and
confidence) per column. -/
def rowColsGo : List Token → List String → Rat → List (String × Quad × Rat) →
    List String × Rat × List (String × Quad × Rat)
  | [], found, bot, bxs => (found, bot, bxs)
  | t :: rest, found, bot, bxs =>
    let bot2 := max bot t.bbox.p2.y
    let st := headerKeywordsMap.foldl
      (fun (st : List String × List (String × Quad × Rat)) p =>
        if p.2.any (fun k => containsSub (normalize t.text) (pyLower k)) then
          ((if st.1.contains p.1 then st.1 else st.1 ++ [p.1]),
           (if (st.2.find? (fun q => q.1 == p.1)).isSome then st.2
            else st.2 ++ [(p.1, t.bbox, t.confidence)]))
        else st)
      (found, bxs)
    rowColsGo rest st.1 bot2 st.2

/-- The selected main header row (lines 421-445). -/
structure HeaderSel where
  maxFound : Nat
  mainRow : Option (List Token)
  bottomY : Rat
  bboxes : List (String × Quad × Rat)
deriving DecidableEq

/-- Selection of the row with strictly the most distinct keyword matches. -/
def selectMainHeader (rows : List (List Token)) : HeaderSel :=
  rows.foldl
    (fun sel row =>
      let r := rowColsGo row [] (-1) []
      if r.1.length > sel.maxFound then ⟨r.1.length, some row, r.2.1, r.2.2⟩ else sel)
    ⟨0, none, -1, []⟩

/-- The line-450 guard: no keyword row, fewer than 2 distinct matches, or
a missing DESCRIPTION/AMOUNT core column. -/
def anchorLocateFails (ocr : List Token) : Bool :=
  let sel := selectMainHeader (potentialHeaderRows ocr)
  sel.mainRow.isNone || decide (sel.maxFound < 2) ||
    !((sel.bboxes.find? (fun q => q.1 == "DESCRIPTION")).isSome &&
      (sel.bboxes.find? (fun q => q.1 == "AMOUNT")).isSome)

/-- Horizontal center of a bounding box, mean of the four corner x. -/
def quadCenterX (q : Quad) : Rat :=
  ratDiv (ratAdd (ratAdd (ratAdd q.p0.x q.p1.x) q.p2.x) q.p3.x) 4

/-- Lookup of an anchor x by column name (Python dict access). -/
def lookupA (l : List (String × Rat)) (k : String) : Option Rat :=
  (l.find? (fun p => p.1 == k)).map Prod.snd

/-- Ordering of the matched header boxes by left edge (line 457). -/
def leBoxLeft (a b : String × Quad × Rat) : Prop := a.2.1.p0.x ≤ b.2.1.p0.x

instance : DecidableRel leBoxLeft :=
  fun a b => inferInstanceAs (Decidable (a.2.1.p0.x ≤ b.2.1.p0.x))

/-- Step 2 (lines 455-475): anchor x per matched column (sorted by left
edge), then interpolation of missing UNIT PRICE / QUANTITY / UNIT anchors
between the DESCRIPTION and AMOUNT anchors, appended in that order. -/
def buildAnchors (bxs : List (String × Quad × Rat)) : List (String × Rat) :=
  if bxs.isEmpty then []
  else
    let base := (List.insertionSort leBoxLeft bxs).map (fun p => (p.1, quadCenterX p.2.1))
    match lookupA base "DESCRIPTION", lookupA base "AMOUNT" with
    | some dx, some ax =>
      let a1 :=
        if (lookupA base "UNIT PRICE").isSome then base
        else base ++ [("UNIT PRICE", ratAdd dx (ratMul (ratSub ax dx) (mkRat 2 5)))]
      let upx := (lookupA a1 "UNIT PRICE").getD (ratAdd dx (ratMul (ratSub ax dx) (mkRat 2 5)))
      let a2 :=
        if (lookupA a1 "QUANTITY").isSome then a1
        else a1 ++ [("QUANTITY", ratAdd upx (ratMul (ratSub ax upx) (mkRat 2 5)))]
      let qx := (lookupA a2 "QUANTITY").getD (ratAdd dx (ratMul (ratSub ax dx) (mkRat 3 5)))
      let a3 :=
        if (lookupA a2 "UNIT").isSome then a2
        else a2 ++ [("UNIT", ratAdd qx (ratMul (ratSub ax qx) (mkRat 1 2)))]
      a3
    | _, _ => base

/-- Step 3 (lines 480-488): the blocks strictly below the header bottom
(plus a 5-unit buffer) with confidence above 0.1, in original order. -/
def blocksBelow (ocr : List Token) (botY : Rat) : List Token :=
  if botY = -1 then []
  else ocr.filter (fun t =>
    decide (topY t > ratAdd botY 5) && decide (t.confidence > mkRat 1 10))

/-- Step 4 grouping loop (lines 496-514): running-mean y-grouping of the
below-header blocks with threshold 10. -/
def groupRowsGo : List Token → List (List Token) → List Token → List (List Token)
  | [], acc, cur => if cur.isEmpty then acc else acc ++ [cur]
  | t :: rest, acc, cur =>
    if cur.isEmpty then groupRowsGo rest acc [t]
    else
      let c := yCenter t
      let m := ratMean (cur.map yCenter)
      if ratAbs (ratSub c m) < 10 then groupRowsGo rest acc (cur ++ [t])
      else groupRowsGo rest (acc ++ [cur]) [t]

/-- The item rows: stable sort by top y, then running-mean grouping. -/
def groupItemRows (below : List Token) : List (List Token) :=
  groupRowsGo (sortByTopY below) [] []

/-- Texts assigned to each output column within one row. -/
structure ColTexts where
  description : List String
  unit_price : List String
  quantity : List String
  unit : List String
  amount : List String
deriving DecidableEq

/-- Nearest-anchor scan (lines 546-553): first anchor (in dict order) at
strictly minimal distance from the block center. -/
def nearestAnchorGo : List (String × Rat) → Rat → Option (String × Rat) → Option (String × Rat)
  | [], _, best => best
  | p :: rest, cx, best =>
    let d := ratAbs (ratSub cx p.2)
    match best with
    | none => nearestAnchorGo rest cx (some (p.1, d))
    | some b =>
      if d < b.2 then nearestAnchorGo rest cx (some (p.1, d))
      else nearestAnchorGo rest cx best

/-- The nearest anchor and its distance for a block center. -/
def nearestAnchor (anchors : List (String × Rat)) (cx : Rat) : Option (String × Rat) :=
  nearestAnchorGo anchors cx none

/-- Append a stripped block text to its assigned column list (lines 555-558). -/
def pushCol (ct : ColTexts) (col : String) (s : String) : ColTexts :=
  if col == "DESCRIPTION" then { ct with description := ct.description ++ [s] }
  else if col == "UNIT PRICE" then { ct with unit_price := ct.unit_price ++ [s] }
  else if col == "QUANTITY" then { ct with quantity := ct.quantity ++ [s] }
  else if col == "UNIT" then { ct with unit := ct.unit ++ [s] }
  else if col == "AMOUNT" then { ct with amount := ct.amount ++ [s] }
  else ct

/-- Column assignment for one row (lines 530-558): sort by left x, assign
each block to the nearest anchor when that distance is under 100. -/
def assignRow (anchors : List (String × Rat)) (row : List Token) : ColTexts :=
  (sortByLeftX row).foldl
    (fun ct t =>
      match nearestAnchor anchors (centerX t) with
      | some (col, d) => if d < 100 then pushCol ct col (pyStrip t.text) else ct
      | none => ct)
    ⟨[], [], [], [], []⟩

/-- One line item of the scripts variant (all fields plain strings,
initialized to `""`, lines 533-539). -/
structure SItem where
  description : String
  unit_price : String
  quantity : String
  unit : String
  amount : String
deriving DecidableEq

/-- Assembly and numeric formatting of one item (lines 561-580): join each
column with spaces, remove commas from the numeric columns, strip, and
reformat `unit_price`/`amount` with `"{:,.0f}"` when they parse. -/
def buildSItem (ct : ColTexts) : SItem :=
  let desc := pyStrip (joinSpace ct.description)
  let up := pyStrip (stripCommas (joinSpace ct.unit_price))
  let qty := pyStrip (stripCommas (joinSpace ct.quantity))
  let u := pyStrip (joinSpace ct.unit)
  let amt := pyStrip (stripCommas (joinSpace ct.amount))
  let up2 := if up ≠ "" then (match pyFloat? up with | some v => fmtComma0 v | none => up) else up
  let amt2 := if amt ≠ "" then (match pyFloat? amt with | some v => fmtComma0 v | none => amt) else amt
  ⟨desc, up2, qty, u, amt2⟩

/-- The footer keywords of line 582. -/
def footerKeywords : List String := ["小計", "消費税", "合計", "振込先", "備考"]

/-- The footer-row test of lines 583-585. -/
def isFooterRow (it : SItem) : Bool :=
  let d := pyLower (pyStrip it.description)
  let a := pyLower (pyStrip it.amount)
  footerKeywords.contains d || footerKeywords.contains a ||
    footerKeywords.any (fun kw => containsSub d kw)

/-- The validity test of lines 589-613: an amount that parses, or a
unit-price/quantity pair whose unit price parses, or a description
together with some other populated field. -/
def isValidSItem (it : SItem) : Bool :=
  if it.description ≠ "" ∨ it.unit_price ≠ "" ∨ it.quantity ≠ "" ∨ it.amount ≠ "" then
    if it.amount ≠ "" then (pyFloat? (stripCommas it.amount)).isSome
    else if it.unit_price ≠ "" ∧ it.quantity ≠ "" then (pyFloat? (stripCommas it.unit_price)).isSome
    else if it.description ≠ "" then
      it.amount ≠ "" || it.unit_price ≠ "" || it.quantity ≠ "" || it.unit ≠ ""
    else false
  else false

/-- The complete line-item extraction of `extract_invoice_data`
(lines 374-619).  The line-450 guard assigns `[]`, but the assignment is
overwritten by the Step 5 result whenever the anchor dictionary is
nonempty, so the final value only depends on the anchors. -/
def extractLineItems (ocr : List Token) : List SItem :=
  let sel := selectMainHeader (potentialHeaderRows ocr)
  let anchors := buildAnchors sel.bboxes
  if anchors.isEmpty then []
  else
    let rows := groupItemRows (blocksBelow ocr sel.bottomY)
    rows.foldl
      (fun acc row =>
        let it := buildSItem (assignRow anchors row)
        if isValidSItem it && !isFooterRow it then acc ++ [it] else acc)
      []

end Script

/-! ## Helper lemmas -/

/-- A character kept by the second `clean_amount` substitution is never
removed by the first one. -/
theorem keep_imp_not_strip (c : Char) (h : keepNumChar c = true) : stripChar c = false := by
  simp only [keepNumChar, isPyDigit, Bool.or_eq_true, decide_eq_true_eq] at h
  simp only [stripChar, isPySpace, Bool.or_eq_false_iff, decide_eq_false_iff_not]
  omega

/-- `String.mk l = ""` exactly when `l` is empty. -/
theorem stringMk_eq_empty_iff (l : List Char) : String.mk l = "" ↔ l = [] := by
  constructor
  · intro h
    exact congrArg String.data h
  · intro h
    rw [h]

/-- The two substitutions of `clean_amount` compose to a single filter on
the kept characters: the output is exactly the digit/comma/dot
subsequence of the input (or `None` when it is empty). -/
theorem cleanAmountStr_eq_filter (s : String) :
    cleanAmountStr s =
      (if s.toList.filter keepNumChar = [] then none
       else some (String.mk (s.toList.filter keepNumChar))) := by
  have hff : (s.toList.filter (fun c => !stripChar c)).filter keepNumChar
      = s.toList.filter keepNumChar := by
    induction s.toList with
    | nil => rfl
    | cons c l ih =>
      by_cases hk : keepNumChar c = true
      · have hs := keep_imp_not_strip c hk
        simp [List.filter_cons, hs, hk, ih]
      · by_cases hstrip : stripChar c = true <;>
          simp [List.filter_cons, hstrip, hk, ih]
  by_cases hs : s = ""
  · subst hs
    rfl
  · rw [cleanAmountStr, if_neg hs, hff]
    by_cases hb : s.toList.filter keepNumChar = []
    · rw [if_pos hb, if_pos ((stringMk_eq_empty_iff _).mpr hb)]
    · rw [if_neg hb, if_neg (fun hc => hb ((stringMk_eq_empty_iff _).mp hc))]

/-- A value returned by `clean_amount` is a nonempty string. -/
theorem cleanAmountStr_ne_empty {s c : String} (h : cleanAmountStr s = some c) : c ≠ "" := by
  rw [cleanAmountStr_eq_filter] at h
  by_cases hb : s.toList.filter keepNumChar = []
  · rw [if_pos hb] at h
    cases h
  · rw [if_neg hb] at h
    cases h
    exact fun hc => hb ((stringMk_eq_empty_iff _).mp hc)

/-! ## C4: the `clean_amount` cleaning claim -/

/-- C4 counterexample: on `"1,234,567"` (7 digits, leading `1`, commas
present) `clean_amount` returns the string unchanged; the claimed
leading-digit drop (which would yield `",234,567"`) does not happen. -/
theorem c4_counterexample :
    cleanAmountStr "1,234,567" = some "1,234,567" ∧ "1,234,567" ≠ ",234,567" :=
  ⟨by decide, by decide⟩

/-- C4 amended: `clean_amount` keeps exactly the digit/comma/dot
subsequence of its input, in order (returning `None` when nothing
remains), and applies no further transformation — in particular the
leading `1` of a 7-plus-digit comma-grouped result is retained. -/
theorem c4_amended (s : String) :
    cleanAmountStr s =
      (if s.toList.filter keepNumChar = [] then none
       else some (String.mk (s.toList.filter keepNumChar))) :=
  cleanAmountStr_eq_filter s

/-! ## C8: idempotence of `clean_amount` -/

/-- C8: `clean_amount` is idempotent on every Python value (`None` or a
string). -/
theorem c8_idempotent (x : Option String) : cleanAmount (cleanAmount x) = cleanAmount x := by
  match x with
  | none => rfl
  | some s =>
    show cleanAmount (cleanAmountStr s) = cleanAmountStr s
    rw [cleanAmountStr_eq_filter s]
    by_cases hb : s.toList.filter keepNumChar = []
    · rw [if_pos hb]
      rfl
    · rw [if_neg hb]
      show cleanAmountStr _ = _
      rw [cleanAmountStr_eq_filter]
      have hk : ∀ c ∈ s.toList.filter keepNumChar, keepNumChar c = true := by
        intro c hc
        exact List.of_mem_filter hc
      have hself : (String.mk (s.toList.filter keepNumChar)).toList.filter keepNumChar
          = s.toList.filter keepNumChar := by
        exact List.filter_eq_self.mpr hk
      rw [hself, if_neg hb]

/-! ## Concrete fixtures for counterexamples and witnesses -/

/-- Axis-aligned quad from left, top, right, bottom. -/
def qd (x0 y0 x1 y1 : Rat) : Quad := ⟨⟨x0, y0⟩, ⟨x1, y0⟩, ⟨x1, y1⟩, ⟨x0, y1⟩⟩

/-- Three tokens sharing the top-left y sort key 10 but with y-centers
10, 24 and 38 (tolerance 15): the clustering outcome depends on the order
in which the stable sort receives them. -/
def tokA : Token := ⟨"A", qd 0 10 50 10, mkRat 9 10⟩

/-- Second equal-sort-key token, y-center 24. -/
def tokB : Token := ⟨"B", qd 60 10 110 38, mkRat 9 10⟩

/-- Third equal-sort-key token, y-center 38. -/
def tokC : Token := ⟨"C", qd 120 10 170 66, mkRat 9 10⟩

/-- Two tokens with distinct top-left y keys 0 and 100. -/
def tokD : Token := ⟨"D", qd 0 0 50 20, mkRat 9 10⟩

/-- Companion of `tokD` with top-left y 100. -/
def tokE : Token := ⟨"E", qd 0 100 50 120, mkRat 9 10⟩

/-- A lone header keyword token `金額` (AMOUNT class only). -/
def hdrTok : Token := ⟨"金額", qd 500 0 550 20, mkRat 9 10⟩

/-- A numeric token sitting below `hdrTok` in the AMOUNT column. -/
def amtTok : Token := ⟨"1000", qd 500 40 550 60, mkRat 9 10⟩

/-- Bounding box of an account-number token. -/
def acctQuad : Quad := qd 0 0 50 10

/-- Name candidate 10 units right of the account number, confidence 0.9. -/
def nearTok : Token := ⟨"田中", qd 60 0 100 10, mkRat 9 10⟩

/-- Name candidate 150 units right of the account number, confidence 0.9. -/
def farTok : Token := ⟨"佐藤", qd 200 0 240 10, mkRat 9 10⟩

/-- A description token for the C2 witness row. -/
def descTok : Token := ⟨"りんご", qd 0 0 50 20, mkRat 9 10⟩

/-- An amount token for the C2 rows. -/
def amt2Tok : Token := ⟨"1,000", qd 400 0 450 20, mkRat 9 10⟩

/-! ## C1: the digit-drop total patch -/

/-- C1 counterexample: the spec's scenario (summed line items 1,250,000,
candidate total `125,000`) — the total-amount post-processing returns the
candidate unchanged; no digit-prefix reconstruction to `1,250,000`
happens, and no part of the pipeline compares the total against the
line-item sum. -/
theorem c1_counterexample :
    Script.processTotal (some "125,000") = some "125,000" ∧
      some "125,000" ≠ some "1,250,000" :=
  ⟨by decide, by decide⟩

/-- C1 amended: the final `total_amount` is a function of the resolved
candidate string alone — cleaned, parsed, and formatted with thousands
grouping whenever its value exceeds the 100 plausibility floor; the sum of
the line-item amounts never enters, so an OCR digit drop remains
uncorrected. -/
theorem c1_amended (s : String) (v : Rat)
    (hv : pyFloat? (pyStrip (stripCommas (String.mk (s.toList.filter keepNumChar)))) = some v)
    (h100 : 100 < v) :
    Script.processTotal (some s) = some (fmtComma0 v) := by
  by_cases hs : s = ""
  · rw [hs] at hv
    rw [show pyFloat? (pyStrip (stripCommas (String.mk (("" : String).toList.filter keepNumChar))))
        = none from by decide] at hv
    cases hv
  · have hcl : pyStrip (stripCommas (String.mk (s.toList.filter keepNumChar))) ≠ "" := by
      intro h
      rw [h, show pyFloat? "" = none from by decide] at hv
      cases hv
    simp only [Script.processTotal]
    rw [if_neg hs, if_neg hcl, hv, if_pos h100]

/-- C1 witness: the amended statement applied to the scenario candidate. -/
theorem c1_witness : Script.processTotal (some "125,000") = some (fmtComma0 (125000 : Rat)) :=
  c1_amended "125,000" 125000 (by decide) (by decide)

/-! ## C5: empty table on anchor-location failure -/

/-- C5: a token list on which anchor location fails (single keyword match,
no DESCRIPTION match), yet the extraction still emits a line item: the
line-450 `line_items = []` assignment is overwritten by the later
unconditional Step-5 assignment. -/
theorem c5_bug_eval :
    Script.anchorLocateFails [hdrTok, amtTok] = true ∧
      Script.extractLineItems [hdrTok, amtTok] = [⟨"", "", "", "", "1,000"⟩] :=
  ⟨by decide, by decide⟩

/-! ## C6: the date fallback -/

/-- C6 counterexample: with the date-like matches in the text order
`2024/12/31, 2023/01/01, 2022/05/05` and both date fields unset, the code
assigns the first and second matches, while the claimed
dedup-sort-earliest/latest rule would assign `2022/05/05` and
`2024/12/31`. -/
theorem c6_counterexample :
    PInv.dateFallback none none ["2024/12/31", "2023/01/01", "2022/05/05"]
        = (some "2024/12/31", some "2023/01/01") ∧
      PInv.dateFallbackSpec none none ["2024/12/31", "2023/01/01", "2022/05/05"]
        = (some "2022/05/05", some "2024/12/31") ∧
      PInv.dateFallback none none ["2024/12/31", "2023/01/01", "2022/05/05"]
        ≠ PInv.dateFallbackSpec none none ["2024/12/31", "2023/01/01", "2022/05/05"] :=
  ⟨by decide, by decide, by decide⟩

/-- C6 amended: whenever `invoice_date` or `due_date` is still unset, the
fallback works per field on the matches in text order (duplicates
included, unsorted): an unset (falsy) `invoice_date` receives the first
match when one exists, an unset `due_date` receives the second match when
one exists, and a field that is already set is left untouched. -/
theorem c6_amended (inv due : Option String) (ms : List String) :
    (PInv.pyTruthyOpt inv = false →
      (PInv.dateFallback inv due ms).1 = (if 1 ≤ ms.length then ms[0]? else inv)) ∧
    (PInv.pyTruthyOpt inv = true → (PInv.dateFallback inv due ms).1 = inv) ∧
    (PInv.pyTruthyOpt due = false →
      (PInv.dateFallback inv due ms).2 = (if 2 ≤ ms.length then ms[1]? else due)) ∧
    (PInv.pyTruthyOpt due = true → (PInv.dateFallback inv due ms).2 = due) := by
  refine ⟨?_, ?_, ?_, ?_⟩
  · intro h1
    simp only [PInv.dateFallback, h1, Bool.not_false, Bool.true_or, if_true, Bool.and_true]
    split_ifs <;> simp_all
  · intro h1
    by_cases h2 : PInv.pyTruthyOpt due = true
    · simp [PInv.dateFallback, h1, h2]
    · simp only [Bool.not_eq_true] at h2
      simp [PInv.dateFallback, h1, h2]
  · intro h2
    simp only [PInv.dateFallback, h2, Bool.not_false, Bool.or_true, if_true, Bool.and_true]
    split_ifs <;> simp_all
  · intro h2
    by_cases h1 : PInv.pyTruthyOpt inv = true
    · simp [PInv.dateFallback, h1, h2]
    · simp only [Bool.not_eq_true] at h1
      simp [PInv.dateFallback, h1, h2]

/-- C6 witness: a mixed state — `invoice_date` already set by a pattern,
`due_date` unset — keeps the set field and fills `due_date` with the
second match. -/
theorem c6_witness :
    (PInv.dateFallback (some "2024/01/05") none ["2023/03/03", "2023/04/04"]).1
        = some "2024/01/05" ∧
      (PInv.dateFallback (some "2024/01/05") none ["2023/03/03", "2023/04/04"]).2
        = some "2023/04/04" := by
  have h := c6_amended (some "2024/01/05") none ["2023/03/03", "2023/04/04"]
  exact ⟨h.2.1 (by decide), (h.2.2.1 (by decide)).trans (by decide)⟩

/-! ## C7: the account-holder spatial ranking -/

/-- C7: two in-window name candidates with equal confidence; the nearer
one (distance 10) loses to the farther one (distance 150) because the
source sorts the `(confidence, distance)` key with `reverse=True`,
which also reverses the distance component — contradicting the inline
comment "then distance ascending". -/
theorem c7_bug_eval :
    Script.selectAccountHolder acctQuad [nearTok, farTok] = some "佐藤" ∧
      nearTok.confidence = farTok.confidence ∧
      ratAbs (ratSub nearTok.bbox.p0.x acctQuad.p1.x)
        < ratAbs (ratSub farTok.bbox.p0.x acctQuad.p1.x) :=
  ⟨by decide, by decide, by decide⟩

/-! ## C9: order independence of row clustering -/

/-- C9 counterexample: the two lists are permutations of each other, but
because their three tokens share the same top-left y sort key, the stable
sort preserves their input order and the running-mean clustering produces
different row groupings. -/
theorem c9_counterexample :
    [tokA, tokB, tokC].Perm [tokA, tokC, tokB] ∧
      PInv.rowCluster [tokA, tokB, tokC] ≠ PInv.rowCluster [tokA, tokC, tokB] :=
  ⟨by decide, by decide⟩

/-! ## C10: the two-number disambiguation rule -/

/-- The two-number assignment never populates `unit_price` and `quantity`
together (`(unit_price, quantity, amount)` triple). -/
def upQtyExclusive : Except Unit (Option String × Option String × Option String) → Prop
  | .ok r => r.1 = none ∨ r.2.1 = none
  | .error _ => True

/-- C10: for a row with exactly two cleaned numbers whose values both
parse, the leftmost becomes `quantity` iff it is smaller than the second
and below 1000, else it becomes `unit_price`; the second is always
`amount`; and no two-number assignment ever sets both `unit_price` and
`quantity`. -/
theorem c10_two_number_rule (c0 c1 : String) (v0 v1 : Rat) (vr : List Rat) :
    (PInv.assignFields [c0, c1] (v0 :: v1 :: vr) =
      .ok (if v0 < v1 ∧ v0 < 1000 then (none, some c0, some c1)
           else (some c0, none, some c1)))
    ∧ ∀ vs : List Rat, upQtyExclusive (PInv.assignFields [c0, c1] vs) := by
  constructor
  · by_cases hv : v0 < v1 ∧ v0 < 1000 <;> simp [PInv.assignFields, hv]
  · intro vs
    match vs with
    | [] => simp [PInv.assignFields, upQtyExclusive]
    | [v] => simp [PInv.assignFields, upQtyExclusive]
    | v0 :: v1 :: vr =>
      by_cases hv : v0 < v1 ∧ v0 < 1000 <;> simp [PInv.assignFields, hv, upQtyExclusive]

/-- Strict top-left-y order on tokens. -/
def ltTopY (a b : Token) : Prop := topY a < topY b

instance : IsAntisymm Token ltTopY :=
  ⟨fun a _ h1 h2 => absurd (lt_trans h1 h2) (lt_irrefl (topY a))⟩

/-- Two permuted token lists with pairwise distinct top-left y keys have
the same stable sort. -/
theorem sortByTopY_eq_of_perm (l1 l2 : List Token) (hp : l1.Perm l2)
    (hd : l1.Pairwise (fun a b => topY a ≠ topY b)) : sortByTopY l1 = sortByTopY l2 := by
  have h1 : List.Sorted leTopY (sortByTopY l1) := List.sorted_insertionSort leTopY l1
  have h2 : List.Sorted leTopY (sortByTopY l2) := List.sorted_insertionSort leTopY l2
  have hp1 : (sortByTopY l1).Perm l1 := List.perm_insertionSort leTopY l1
  have hp2 : (sortByTopY l2).Perm l2 := List.perm_insertionSort leTopY l2
  have hd2 : l2.Pairwise (fun a b => topY a ≠ topY b) :=
    (hp.pairwise_iff (fun h => Ne.symm h)).mp hd
  have hd1s : (sortByTopY l1).Pairwise (fun a b => topY a ≠ topY b) :=
    (hp1.pairwise_iff (fun h => Ne.symm h)).mpr hd
  have hd2s : (sortByTopY l2).Pairwise (fun a b => topY a ≠ topY b) :=
    (hp2.pairwise_iff (fun h => Ne.symm h)).mpr hd2
  have hs1 : List.Sorted ltTopY (sortByTopY l1) :=
    (h1.and hd1s).imp (fun hab => lt_of_le_of_ne hab.1 hab.2)
  have hs2 : List.Sorted ltTopY (sortByTopY l2) :=
    (h2.and hd2s).imp (fun hab => lt_of_le_of_ne hab.1 hab.2)
  exact List.eq_of_perm_of_sorted (hp1.trans (hp.trans hp2.symm)) hs1 hs2

/-- C9 amended: row clustering is order-independent exactly on token lists
whose top-left y sort keys are pairwise distinct; the sort is stable, so
key ties leak the input order into the clustering (`c9_counterexample`). -/
theorem c9_amended (l1 l2 : List Token) (hp : l1.Perm l2)
    (hd : l1.Pairwise (fun a b => topY a ≠ topY b)) :
    PInv.rowCluster l1 = PInv.rowCluster l2 :=
  congrArg PInv.clusterRows (sortByTopY_eq_of_perm l1 l2 hp hd)

/-- C9 witness: the amended statement on two tokens with distinct keys. -/
theorem c9_witness : PInv.rowCluster [tokD, tokE] = PInv.rowCluster [tokE, tokD] :=
  c9_amended [tokD, tokE] [tokE, tokD] (by decide) (by decide)

/-! ## C3: numeric reconciliation -/

/-- The parsed value of a numeric string is nonnegative. -/
theorem pyFloat?_nonneg {s : String} {v : Rat} (h : pyFloat? s = some v) : 0 ≤ v := by
  simp only [pyFloat?] at h
  split at h
  · split at h
    · split at h
      · cases h
      · cases h
        exact Rat.mkRat_nonneg (by positivity) _
    · split at h
      · cases h
      · split at h
        · cases h
        · cases h
          exact Rat.mkRat_nonneg (by positivity) _
  · cases h

/-- A successfully parsed present field is nonnegative. -/
theorem parseNumField_nonneg {f : Option String} {v : Rat}
    (h : PInv.parseNumField f = .ok (some v)) : 0 ≤ v := by
  match f with
  | none => exact absurd h (by simp [PInv.parseNumField])
  | some s =>
    simp only [PInv.parseNumField] at h
    by_cases hs : s = ""
    · rw [if_pos hs] at h
      exact absurd h (by simp)
    · rw [if_neg hs] at h
      cases hw : pyFloat? (stripCommas s) with
      | none =>
        rw [hw] at h
        cases h
      | some w =>
        rw [hw] at h
        injection h with h1
        injection h1 with h2
        exact h2 ▸ pyFloat?_nonneg hw

/-- C3 counterexample: `unit_price = "3"` and `amount = "0"` both parse,
`quantity` is absent and the divisor is nonzero, yet the reconciliation
leaves `quantity` unset — while the claim mandates
`quantity = amount / unit_price` formatted, i.e. `"0"`. -/
theorem c3_counterexample :
    PInv.reconcile ⟨"x", some "3", none, none, some "0"⟩
        = ⟨"x", some "3", none, none, some "0"⟩ ∧
      fmtQuot (ratDiv 0 3) = "0" :=
  ⟨by decide, by decide⟩

/-- C3 amended: a missing third field is derived from the other two
exactly when both present values are nonzero (Python truthiness of `0.0`
guards every branch); a zero value, a zero divisor, or a non-numeric
present field leaves the item unchanged, and no exception escapes (the
reconciliation is a total function; parse failures hit the
`except (ValueError, ZeroDivisionError)` arm). -/
theorem c3_amended :
    (∀ (it : PInv.LineItem) (q u : Rat),
      PInv.parseNumField it.quantity = .ok (some q) →
      PInv.parseNumField it.unit_price = .ok (some u) →
      PInv.parseNumField it.amount = .ok none →
      PInv.reconcile it =
        (if q ≠ 0 ∧ u ≠ 0 then { it with amount := some (fmtComma0 (ratMul q u)) } else it)) ∧
    (∀ (it : PInv.LineItem) (q a : Rat),
      PInv.parseNumField it.quantity = .ok (some q) →
      PInv.parseNumField it.amount = .ok (some a) →
      PInv.parseNumField it.unit_price = .ok none →
      PInv.reconcile it =
        (if q ≠ 0 ∧ a ≠ 0 then { it with unit_price := some (fmtQuot (ratDiv a q)) } else it)) ∧
    (∀ (it : PInv.LineItem) (u a : Rat),
      PInv.parseNumField it.unit_price = .ok (some u) →
      PInv.parseNumField it.amount = .ok (some a) →
      PInv.parseNumField it.quantity = .ok none →
      PInv.reconcile it =
        (if u ≠ 0 ∧ a ≠ 0 then { it with quantity := some (fmtQuot (ratDiv a u)) } else it)) ∧
    (∀ it : PInv.LineItem,
      (PInv.parseNumField it.quantity = .error () ∨
        PInv.parseNumField it.unit_price = .error () ∨
        PInv.parseNumField it.amount = .error ()) →
      PInv.reconcile it = it) := by
  refine ⟨?_, ?_, ?_, ?_⟩
  · intro it q u hq hu ha
    unfold PInv.reconcile
    rw [hq, hu, ha]
    by_cases hq0 : q = 0 <;> by_cases hu0 : u = 0 <;>
      simp [PInv.truthyR, hq0, hu0]
  · intro it q a hq ha hu
    have hqn : 0 ≤ q := parseNumField_nonneg hq
    unfold PInv.reconcile
    rw [hq, hu, ha]
    by_cases hq0 : q = 0 <;> by_cases ha0 : a = 0
    · simp [PInv.truthyR, hq0, ha0]
    · simp [PInv.truthyR, hq0, ha0]
    · simp [PInv.truthyR, hq0, ha0]
    · have hqpos : 0 < q := lt_of_le_of_ne hqn (Ne.symm hq0)
      simp [PInv.truthyR, hq0, ha0, hqpos]
  · intro it u a hu ha hq
    have hun : 0 ≤ u := parseNumField_nonneg hu
    unfold PInv.reconcile
    rw [hq, hu, ha]
    by_cases hu0 : u = 0 <;> by_cases ha0 : a = 0
    · simp [PInv.truthyR, hu0, ha0]
    · simp [PInv.truthyR, hu0, ha0]
    · simp [PInv.truthyR, hu0, ha0]
    · have hupos : 0 < u := lt_of_le_of_ne hun (Ne.symm hu0)
      simp [PInv.truthyR, hu0, ha0, hupos]
  · intro it h
    unfold PInv.reconcile
    rcases h with h | h | h
    · rw [h]
    · rw [h]
      cases PInv.parseNumField it.quantity <;> rfl
    · rw [h]
      cases PInv.parseNumField it.quantity <;> cases PInv.parseNumField it.unit_price <;> rfl

/-- C3 witness: quantity 2 and unit price 3 derive amount `"6"`. -/
theorem c3_witness :
    PInv.reconcile ⟨"x", some "3", some "2", none, none⟩
      = ⟨"x", some "3", some "2", none, some "6"⟩ := by
  have h := c3_amended.1 ⟨"x", some "3", some "2", none, none⟩ 2 3
    (by decide) (by decide) (by decide)
  exact h.trans (by decide)

/-! ## C2: the line-item keep condition -/

/-- The head of a `dropWhile` result fails the predicate. -/
theorem dropWhile_head_not {α : Type} {p : α → Bool} :
    ∀ (l : List α) (c : α) (t : List α), l.dropWhile p = c :: t → p c = false := by
  intro l
  induction l with
  | nil => intro c t h; cases h
  | cons a rest ih =>
    intro c t h
    by_cases ha : p a = true
    · rw [List.dropWhile_cons_of_pos ha] at h
      exact ih c t h
    · rw [List.dropWhile_cons_of_neg (by simpa using ha)] at h
      cases h
      simpa using ha

/-- An ASCII digit is a kept digit character. -/
theorem isAsciiDigit_keep {c : Char} (h : isAsciiDigit c = true) : keepNumChar c = true := by
  simp only [isAsciiDigit, decide_eq_true_eq] at h
  simp only [keepNumChar, isPyDigit, Bool.or_eq_true, decide_eq_true_eq]
  omega

/-- Every character of a numeric-regex match is kept by `clean_amount`. -/
theorem isNumericText_chars_keep {s : String} (h : PInv.isNumericText s = true) :
    ∀ c ∈ s.toList, keepNumChar c = true := by
  intro c hc
  simp only [PInv.isNumericText, Bool.and_eq_true, Bool.or_eq_true] at h
  obtain ⟨⟨hip, hipall⟩, hrest⟩ := h
  have hsplit := List.takeWhile_append_dropWhile (l := s.toList) (p := fun c => !(c == '.'))
  rw [← hsplit] at hc
  rcases List.mem_append.mp hc with hmem | hmem
  · have := List.all_eq_true.mp hipall c hmem
    rw [Bool.or_eq_true] at this
    rcases this with hd | hcomma
    · exact isAsciiDigit_keep hd
    · have : c = ',' := by simpa using hcomma
      subst this
      decide
  · cases hr : s.toList.dropWhile (fun c => !(c == '.')) with
    | nil =>
      rw [hr] at hmem
      cases hmem
    | cons r0 rt =>
      rw [hr] at hmem
      have hr0 : r0 = '.' := by
        have := dropWhile_head_not _ _ _ hr
        simpa using this
      rcases List.mem_cons.mp hmem with hc0 | hct
      · rw [hc0, hr0]
        decide
      · rcases hrest with hempty | htail
        · rw [hr] at hempty
          cases hempty
        · rw [hr] at htail
          simp only [List.tail_cons, Bool.and_eq_true] at htail
          exact isAsciiDigit_keep (List.all_eq_true.mp htail.2 c hct)

/-- A numeric-regex match has a nonempty character list. -/
theorem isNumericText_ne_nil {s : String} (h : PInv.isNumericText s = true) :
    s.toList ≠ [] := by
  simp only [PInv.isNumericText, Bool.and_eq_true] at h
  intro hnil
  rw [hnil] at h
  simp at h

/-- `clean_amount` is the identity on a numeric-regex match. -/
theorem cleanAmountStr_of_numeric {s : String} (h : PInv.isNumericText s = true) :
    cleanAmountStr s = some s := by
  rw [cleanAmountStr_eq_filter]
  have hfil : s.toList.filter keepNumChar = s.toList :=
    List.filter_eq_self.mpr (isNumericText_chars_keep h)
  rw [hfil, if_neg (isNumericText_ne_nil h)]
  have : String.mk s.toList = s := rfl
  rw [this]

/-- The cleaned numbers of an all-numeric list are the list itself. -/
theorem cleanedNumbers_of_numeric {ns : List String}
    (h : ∀ s ∈ ns, PInv.isNumericText s = true) : PInv.cleanedNumbers ns = ns := by
  induction ns with
  | nil => rfl
  | cons a rest ih =>
    have ha := cleanAmountStr_of_numeric (h a (List.mem_cons_self a rest))
    simp only [PInv.cleanedNumbers, List.filterMap_cons, ha]
    exact congrArg (a :: ·) (ih (fun s hs => h s (List.mem_cons_of_mem a hs)))

/-- A string produced by `clean_amount` inside `cleaned_numbers` is nonempty. -/
theorem mem_cleanedNumbers_ne_empty {ns : List String} {c : String}
    (hc : c ∈ PInv.cleanedNumbers ns) : c ≠ "" := by
  obtain ⟨a, _, ha⟩ := List.mem_filterMap.mp hc
  exact cleanAmountStr_ne_empty ha

/-- The numbers collected by the row scan are exactly the numeric-regex
matches of the stripped token texts, in order. -/
theorem rowPartsGo_numbers :
    ∀ (l : List Token) (ds ns : List String) (u : Option String),
      (PInv.rowPartsGo l ds ns u).numbers =
        ns ++ l.filterMap (fun t =>
          if PInv.isNumericText (pyStrip t.text) = true then some (pyStrip t.text) else none) := by
  intro l
  induction l with
  | nil =>
    intro ds ns u
    simp [PInv.rowPartsGo]
  | cons t rest ih =>
    intro ds ns u
    simp only [PInv.rowPartsGo]
    by_cases h1 : PInv.isNumericText (pyStrip t.text) = true
    · rw [if_pos h1, ih]
      simp [List.filterMap_cons, h1]
    · rw [if_neg h1]
      by_cases h2 : PInv.unitWords.contains (pyStrip t.text) = true
      · rw [if_pos h2, ih]
        simp [List.filterMap_cons, h1]
      · rw [if_neg h2]
        by_cases h3 : PInv.descriptionExcluded (pyStrip t.text) = true
        · rw [if_pos h3, ih]
          simp [List.filterMap_cons, h1]
        · rw [if_neg h3, ih]
          simp [List.filterMap_cons, h1]

/-- Reconciliation never changes the description. -/
theorem reconcile_description (it : PInv.LineItem) :
    (PInv.reconcile it).description = it.description := by
  unfold PInv.reconcile
  split
  · split_ifs <;> rfl
  · rfl

/-- Reconciliation keeps a present nonempty amount unchanged. -/
theorem reconcile_amount_some {it : PInv.LineItem} {c : String}
    (hc : it.amount = some c) (hne : c ≠ "") : (PInv.reconcile it).amount = some c := by
  unfold PInv.reconcile
  split
  · rename_i q u a _ _ ha
    rw [hc] at ha
    simp only [PInv.parseNumField, if_neg hne] at ha
    cases hw : pyFloat? (stripCommas c) with
    | none =>
      rw [hw] at ha
      cases ha
    | some w =>
      rw [hw] at ha
      injection ha with ha1
      subst ha1
      have hC1 : ¬(PInv.truthyR q = true ∧ PInv.truthyR u = true ∧
          some w = (none : Option Rat)) :=
        fun hcond => Option.noConfusion hcond.2.2
      rw [if_neg hC1]
      split_ifs <;> exact hc
  · exact hc

/-- Reconciliation is the identity when all three numeric fields are
absent. -/
theorem reconcile_id_allNone {it : PInv.LineItem} (hu : it.unit_price = none)
    (hq : it.quantity = none) (ha : it.amount = none) : PInv.reconcile it = it := by
  unfold PInv.reconcile
  rw [hu, hq, ha]
  simp [PInv.parseNumField, PInv.truthyR]

/-- A successful field assignment from a nonempty cleaned list always
sets the amount to one of the cleaned numbers. -/
theorem assignFields_ok_amount {cleaned : List String} {vals : List Rat}
    {r : Option String × Option String × Option String}
    (hne : cleaned ≠ []) (h : PInv.assignFields cleaned vals = .ok r) :
    ∃ c ∈ cleaned, r.2.2 = some c := by
  match cleaned with
  | [] => exact absurd rfl hne
  | [c0] =>
    cases h
    exact ⟨c0, by simp⟩
  | [c0, c1] =>
    match vals with
    | [] =>
      cases h
      exact ⟨c1, by simp⟩
    | [v] => cases h
    | v0 :: v1 :: vr =>
      simp only [PInv.assignFields] at h
      split_ifs at h <;> cases h <;> exact ⟨c1, by simp⟩
  | c0 :: c1 :: c2 :: cr =>
    cases h
    exact ⟨c2, by simp⟩

/-- C2 counterexample: a row holding a single amount-like token and no
description is discarded by `parse_line_items_logic`, although the claim
would keep it (`amount` present). -/
theorem c2_counterexample :
    PInv.processRow [amt2Tok] = .ok none ∧
      PInv.isNumericText (pyStrip amt2Tok.text) = true :=
  ⟨by decide, by decide⟩

/-- C2 amended: a candidate row that completes without an index error
yields a line item exactly when its assembled description is nonempty AND
it carries at least one numeric-regex token; neither an amount alone nor a
description alone survives. -/
theorem c2_amended (row : List Token) (r : Option PInv.LineItem)
    (h : PInv.processRow row = .ok r) :
    (r.isSome = true ↔
      ((PInv.rowParts (sortByLeftX row)).description ≠ "" ∧
        row.any (fun t => PInv.isNumericText (pyStrip t.text)) = true)) := by
  simp only [PInv.processRow] at h
  set p := PInv.rowParts (sortByLeftX row) with hpdef
  have hchar : p.numbers =
      (sortByLeftX row).filterMap (fun t =>
        if PInv.isNumericText (pyStrip t.text) = true then some (pyStrip t.text) else none) := by
    rw [hpdef]
    have := rowPartsGo_numbers (sortByLeftX row) [] [] none
    simpa [PInv.rowParts] using this
  have hmem : ∀ t : Token, t ∈ sortByLeftX row ↔ t ∈ row :=
    fun t => (List.perm_insertionSort leLeftX row).mem_iff
  have hnum_iff : p.numbers ≠ [] ↔
      row.any (fun t => PInv.isNumericText (pyStrip t.text)) = true := by
    rw [hchar, Ne, List.filterMap_eq_nil_iff, List.any_eq_true]
    push_neg
    constructor
    · rintro ⟨a, ha, hne⟩
      refine ⟨a, (hmem a).mp ha, ?_⟩
      by_cases hb : PInv.isNumericText (pyStrip a.text) = true
      · exact hb
      · exact absurd (if_neg hb) hne
    · rintro ⟨a, ha, hb⟩
      exact ⟨a, (hmem a).mpr ha, by simp [hb]⟩
  have hnumeric : ∀ s ∈ p.numbers, PInv.isNumericText s = true := by
    intro s hs
    rw [hchar] at hs
    obtain ⟨t, _, hts⟩ := List.mem_filterMap.mp hs
    by_cases hb : PInv.isNumericText (pyStrip t.text) = true
    · rw [if_pos hb] at hts
      injection hts with hts1
      rw [← hts1]
      exact hb
    · rw [if_neg hb] at hts
      cases hts
  by_cases hd : p.description = ""
  · by_cases hn : p.numbers = []
    · rw [if_pos ⟨hd, hn⟩] at h
      injection h with h1
      rw [← h1]
      simp [hd]
    · by_cases hlen : p.numbers.length < 2
      · rw [if_neg (fun hcon => hn hcon.2), if_pos ⟨hd, hlen⟩] at h
        injection h with h1
        rw [← h1]
        simp [hd]
      · rw [if_neg (fun hcon => hn hcon.2), if_neg (fun hcon => hlen hcon.2)] at h
        cases ha : PInv.assignFields (PInv.cleanedNumbers p.numbers)
            (PInv.numericValues (PInv.cleanedNumbers p.numbers)) with
        | error e =>
          rw [ha] at h
          exact Except.noConfusion h
        | ok triple =>
          obtain ⟨up, qty, amt⟩ := triple
          rw [ha] at h
          have h2 : (if (PInv.reconcile ⟨p.description, up, qty, p.unit, amt⟩).description ≠ "" ∧
              (PInv.keepField (PInv.reconcile ⟨p.description, up, qty, p.unit, amt⟩).amount ∨
               PInv.keepField (PInv.reconcile ⟨p.description, up, qty, p.unit, amt⟩).unit_price ∨
               PInv.keepField (PInv.reconcile ⟨p.description, up, qty, p.unit, amt⟩).quantity)
              then Except.ok (some (PInv.reconcile ⟨p.description, up, qty, p.unit, amt⟩))
              else Except.ok none) = Except.ok r := h
          rw [if_neg (fun hcon => hcon.1
            (by rw [reconcile_description]; exact hd))] at h2
          injection h2 with h1
          rw [← h1]
          simp [hd]
  · have hcond1 : ¬(p.description = "" ∧ p.numbers = []) := fun hcon => hd hcon.1
    have hcond2 : ¬(p.description = "" ∧ p.numbers.length < 2) := fun hcon => hd hcon.1
    rw [if_neg hcond1, if_neg hcond2] at h
    by_cases hn : p.numbers = []
    · rw [hn] at h
      have h2 : (if (PInv.reconcile ⟨p.description, none, none, p.unit, none⟩).description ≠ "" ∧
          (PInv.keepField (PInv.reconcile ⟨p.description, none, none, p.unit, none⟩).amount ∨
           PInv.keepField (PInv.reconcile ⟨p.description, none, none, p.unit, none⟩).unit_price ∨
           PInv.keepField (PInv.reconcile ⟨p.description, none, none, p.unit, none⟩).quantity)
          then Except.ok (some (PInv.reconcile ⟨p.description, none, none, p.unit, none⟩))
          else Except.ok none) = Except.ok r := h
      have hrec : PInv.reconcile ⟨p.description, none, none, p.unit, none⟩
          = ⟨p.description, none, none, p.unit, none⟩ := reconcile_id_allNone rfl rfl rfl
      rw [hrec] at h2
      rw [if_neg (fun hcon => by
        rcases hcon.2 with hk | hk | hk <;> exact Bool.noConfusion hk)] at h2
      injection h2 with h1
      rw [← h1]
      have hnoany : ¬ row.any (fun t => PInv.isNumericText (pyStrip t.text)) = true :=
        fun hany => (hnum_iff.mpr hany) hn
      simp [hnoany]
    · have hcleaned : PInv.cleanedNumbers p.numbers = p.numbers :=
        cleanedNumbers_of_numeric hnumeric
      rw [hcleaned] at h
      cases ha : PInv.assignFields p.numbers (PInv.numericValues p.numbers) with
      | error e =>
        rw [ha] at h
        exact Except.noConfusion h
      | ok triple =>
        obtain ⟨up, qty, amt⟩ := triple
        rw [ha] at h
        obtain ⟨c, hcmem, hcamt⟩ := assignFields_ok_amount hn ha
        have hcne : c ≠ "" := mem_cleanedNumbers_ne_empty (hcleaned.symm ▸ hcmem)
        have hXamt : (⟨p.description, up, qty, p.unit, amt⟩ : PInv.LineItem).amount = some c :=
          hcamt
        have hamt2 : (PInv.reconcile ⟨p.description, up, qty, p.unit, amt⟩).amount = some c :=
          reconcile_amount_some hXamt hcne
        have h2 : (if (PInv.reconcile ⟨p.description, up, qty, p.unit, amt⟩).description ≠ "" ∧
            (PInv.keepField (PInv.reconcile ⟨p.description, up, qty, p.unit, amt⟩).amount ∨
             PInv.keepField (PInv.reconcile ⟨p.description, up, qty, p.unit, amt⟩).unit_price ∨
             PInv.keepField (PInv.reconcile ⟨p.description, up, qty, p.unit, amt⟩).quantity)
            then Except.ok (some (PInv.reconcile ⟨p.description, up, qty, p.unit, amt⟩))
            else Except.ok none) = Except.ok r := h
        have hk : PInv.keepField (PInv.reconcile ⟨p.description, up, qty, p.unit, amt⟩).amount
            = true := by
          rw [hamt2]
          simp [PInv.keepField, hcne]
        rw [if_pos ⟨by rw [reconcile_description]; exact hd, Or.inl hk⟩] at h2
        injection h2 with h1
        rw [← h1]
        simp [hd, hnum_iff.mp hn]

/-- C2 witness: a row with a description token and an amount token is
kept, and the amended equivalence holds on it. -/
theorem c2_witness :
    PInv.processRow [descTok, amt2Tok]
        = .ok (some ⟨"りんご", none, none, none, some "1,000"⟩) ∧
      ((some (⟨"りんご", none, none, none, some "1,000"⟩ : PInv.LineItem)).isSome = true ↔
        ((PInv.rowParts (sortByLeftX [descTok, amt2Tok])).description ≠ "" ∧
          [descTok, amt2Tok].any (fun t => PInv.isNumericText (pyStrip t.text)) = true)) :=
  ⟨by decide,
   c2_amended [descTok, amt2Tok] (some ⟨"りんご", none, none, none, some "1,000"⟩) (by decide)⟩
